import Mathlib

/- Verification of the retrieval, ranking and formatting engine in
   backend/rag.py: the functions there named to_score and pack, and the
   AIService methods retrieve, augment_query (its post-processing),
   format_context, and the aggregation loop shared by search,
   generate_ideas, generate_requirements and generate_change_request.
   Python floats are modelled as rationals, Python strings as lists of
   characters (Python slicing and len operate on code points, exactly as
   List.take and List.length do over Char), and the network collaborators
   (embedding service, the six similarity sources, the LLM) become
   explicit parameters holding the values they return. -/

namespace Rag

/-- Python strings, as lists of characters. -/
abbrev Str := List Char

/-- An ORM record as seen by the packing code: its primary key and the
    entries of its attribute dictionary, values rendered as text. -/
structure Obj where
  id : Nat
  fields : List (String × Str)
deriving DecidableEq

/-- A requirement version row: its own record plus the back-reference to
    the owning requirement (absent or None collapse to none). -/
structure ReqVer where
  obj : Obj
  requirement : Option Obj
deriving DecidableEq

/-- The uniform hit dictionary built by the packing code. -/
structure Hit where
  type : String
  id : Nat
  distance : ℚ
  score : ℚ
  data : List (String × Str)
deriving DecidableEq

/-- The distance normalizer in backend/rag.py: for cosine and l2 the
    score is 1 / (1 + distance), otherwise the negated distance. -/
def toScore (distance : ℚ) (metric : String) : ℚ :=
  if metric = "cosine" ∨ metric = "l2" then 1 / (1 + distance) else -distance

/-- The underscore test applied to attribute names by the packing code:
    Python startswith with the one-character underscore needle holds
    exactly when the first character of the name is the underscore. -/
def underscoreKey (k : String) : Bool := k.toList.take 1 == ['_']

/-- One packed hit: type tag, record id, raw distance, cosine-style
    normalized score, and the attribute snapshot keeping exactly the
    attributes whose name does not start with an underscore. -/
def packOne (hit_type : String) (obj : Obj) (dist : ℚ) : Hit :=
  { type := hit_type, id := obj.id, distance := dist,
    score := toScore dist "cosine",
    data := obj.fields.filter (fun kv => !(underscoreKey kv.1)) }

/-- The packing function in backend/rag.py: truncate the rows to the
    first topk and wrap each row as a hit. -/
def pack (hit_type : String) (rows : List (Obj × ℚ)) (topk : Nat) : List Hit :=
  (rows.take topk).map (fun od => packOne hit_type od.1 od.2)

/-- The comparison realized by sorting on the score key in reverse:
    a comes no later than b when the score of b is at most that of a. -/
def scoreGe (a b : Hit) : Prop := b.score ≤ a.score

instance : DecidableRel scoreGe :=
  fun a b => inferInstanceAs (Decidable (b.score ≤ a.score))

instance : IsTotal Hit scoreGe :=
  ⟨fun a b => le_total b.score a.score⟩

instance : IsTrans Hit scoreGe :=
  ⟨fun _ _ _ hab hbc => le_trans hbc hab⟩

/-- Sorting a hit list by score descending, as done by the in-place list
    sort with a score key and reverse order (a stable sort). -/
def sortHits (hits : List Hit) : List Hit := hits.insertionSort scoreGe

/-- The resolution step of AIService.retrieve for requirement rows: take
    the owning requirement when the back-reference yields one, otherwise
    fall back to the version record itself. -/
def resolveVer (ver : ReqVer) : Obj := ver.requirement.getD ver.obj

/-- AIService.retrieve with the six similarity sources abstracted as the
    row lists they return for the embedded query: pack each source under
    its type tag, resolve requirement versions to their owning
    requirements first, concatenate, and sort by score descending. -/
def retrieve (proj doc idea cr stk : List (Obj × ℚ)) (reqRows : List (ReqVer × ℚ))
    (topk_per_type : Nat) : List Hit :=
  sortHits
    (pack "Project" proj topk_per_type ++
     pack "Document" doc topk_per_type ++
     pack "Idea" idea topk_per_type ++
     pack "Change Request" cr topk_per_type ++
     pack "Stakeholder" stk topk_per_type ++
     pack "Requirement" (reqRows.map (fun vd => (resolveVer vd.1, vd.2))) topk_per_type)

/-- The dedup key of the aggregation loops: the pair of type tag and id. -/
def hitKey (h : Hit) : String × Nat := (h.type, h.id)

/-- The seen-set scan shared by AIService.search, generate_ideas,
    generate_requirements and generate_change_request: hits are visited
    in order with one shared seen-set, and a hit is kept exactly when its
    key has not been seen yet. -/
def dedupHits : List Hit → List (String × Nat) → List Hit
  | [], _ => []
  | h :: rest, seen =>
    if hitKey h ∈ seen then dedupHits rest seen
    else h :: dedupHits rest (hitKey h :: seen)

/-- The aggregation over the per-query retrieval results: the nested loop
    over queries and hits is one left-to-right scan of the concatenation
    with a single seen-set, followed by a sort by score descending. -/
def aggregateFromQueries (retrievals : List (List Hit)) : List Hit :=
  sortHits (dedupHits retrievals.flatten [])

/-- Python str.strip with a character class: drop the matching characters
    from both ends of the line. -/
def pstrip (p : Char → Bool) (s : Str) : Str :=
  ((s.dropWhile p).reverse.dropWhile p).reverse

/-- The whitespace class of the argument-less str.strip. -/
def wsChar (c : Char) : Bool := c.isWhitespace

/-- The per-line cleanup in AIService.augment_query: strip whitespace,
    then dashes, then bullets, then whitespace again, then double quotes,
    then single quotes (the quote characters are written by code point). -/
def stripLine (q : Str) : Str :=
  pstrip (fun c => c == Char.ofNat 39)
    (pstrip (fun c => c == Char.ofNat 34)
      (pstrip wsChar
        (pstrip (fun c => c == Char.ofNat 8226)
          (pstrip (fun c => c == Char.ofNat 45)
            (pstrip wsChar q)))))

/-- The post-processing of the raw expansion response in
    AIService.augment_query: split on newline characters, keep the lines
    that are non-blank after stripping whitespace, clean each with
    stripLine, and keep the results longer than 10 characters. -/
def augmentFilter (raw : Str) : List Str :=
  let queries :=
    ((raw.splitOn (Char.ofNat 10)).filter (fun q => !(pstrip wsChar q).isEmpty)).map stripLine
  queries.filter (fun q => 10 < q.length)

/-- Python dict.get on a field snapshot: the value of the first entry
    with the given key, or the default when no entry has it. -/
def dget (d : List (String × Str)) (k : String) (dflt : Str) : Str :=
  ((d.find? (fun kv => kv.1 == k)).map Prod.snd).getD dflt

/-- Rendering of a score with two decimals, modelling the fixed-point
    f-string format used for the relevance lines; exact tie behaviour of
    binary floating point is immaterial to every claim below. -/
def fmt2 (q : ℚ) : Str :=
  let n : Int := round (q * 100)
  let m := n.natAbs
  (if n < 0 then ['-'] else []) ++ (toString (m / 100)).toList ++ ['.'] ++
    (if m % 100 < 10 then ['0'] else []) ++ (toString (m % 100)).toList

/-- The document body line of AIService format_context: text truncated to
    500 characters with a trailing ellipsis when it was longer. -/
def docBody (text : Str) : Str :=
  if 500 < text.length then text.take 500 ++ "...".toList else text

/-- The idea and requirement description line: an indented description
    truncated to 200 characters with a trailing ellipsis when longer. -/
def descLine (desc : Str) : Str :=
  if 200 < desc.length then "  ".toList ++ desc.take 200 ++ "...".toList
  else "  ".toList ++ desc

/-- The change request summary line: the summary truncated to its first
    100 characters, with no ellipsis appended. -/
def crSummaryLine (s : Str) : Str := "\n- ".toList ++ s.take 100

/-- The parts appended for one document hit. -/
def docParts (h : Hit) : List Str :=
  ["\n### ".toList ++ dget h.data "title" "Untitled".toList ++ " (".toList ++
     dget h.data "type" "unknown".toList ++ ")".toList,
   "Relevance: ".toList ++ fmt2 h.score,
   docBody (dget h.data "text" [])]

/-- The parts appended for one idea hit. -/
def ideaParts (h : Hit) : List Str :=
  ["\n- **".toList ++ dget h.data "title" "Untitled".toList ++ "** (".toList ++
     dget h.data "category" "uncategorized".toList ++ ")".toList,
   "  Relevance: ".toList ++ fmt2 h.score,
   "  Status: ".toList ++ dget h.data "status" "unknown".toList ++ ", Priority: ".toList ++
     dget h.data "priority" "unknown".toList,
   "  ICE Score: ".toList ++ dget h.data "ice_score" "N/A".toList,
   descLine (dget h.data "description" [])]

/-- The parts appended for one requirement hit. -/
def reqParts (h : Hit) : List Str :=
  ["\n- **".toList ++ dget h.data "title" "Untitled".toList ++ "** (".toList ++
     dget h.data "type" "unknown".toList ++ ")".toList,
   "  Relevance: ".toList ++ fmt2 h.score,
   descLine (dget h.data "description" [])]

/-- The parts appended for one project hit. -/
def projParts (h : Hit) : List Str :=
  ["\n- **".toList ++ dget h.data "title" "Untitled".toList ++ "** (Key: ".toList ++
     dget h.data "key" "N/A".toList ++ ")".toList,
   "  Status: ".toList ++ dget h.data "project_status" "unknown".toList]

/-- The parts appended for one change request hit. -/
def crParts (h : Hit) : List Str :=
  [crSummaryLine (dget h.data "summary" "No summary".toList),
   "  Status: ".toList ++ dget h.data "status" "unknown".toList]

/-- The parts appended for one stakeholder hit. -/
def stkParts (h : Hit) : List Str :=
  ["\n- **Name: ".toList ++ dget h.data "name" "Untitled".toList ++ " ".toList ++
     dget h.data "surname" "Untitled".toList ++ ")**".toList,
   "  Role: ".toList ++ dget h.data "role" "unknown".toList]

/-- One section of format_context: nothing when no hit carries the type
    tag, otherwise the header followed by the parts of the first 5 hits
    of that type, in list order. -/
def sectionFor (header : Str) (t : String) (parts : Hit → List Str) (hits : List Hit) :
    List Str :=
  let group := hits.filter (fun h => h.type == t)
  if group.isEmpty then [] else header :: (group.take 5).flatMap parts

/-- AIService format_context: the six sections in the fixed order of the
    code, joined with newlines, or the sentinel text when every section
    is empty. -/
def formatContext (hits : List Hit) : Str :=
  let parts :=
    sectionFor "## Relevant Documents:".toList "Document" docParts hits ++
    sectionFor "\n\n## Existing Ideas:".toList "Idea" ideaParts hits ++
    sectionFor "\n\n## Related Requirements:".toList "Requirement" reqParts hits ++
    sectionFor "\n\n## Related Projects:".toList "Project" projParts hits ++
    sectionFor "\n\n## Recent Change Requests:".toList "Change Request" crParts hits ++
    sectionFor "\n\n## Related Stakeholders:".toList "Stakeholder" stkParts hits
  if parts.isEmpty then "No relevant context found.".toList
  else List.intercalate "\n".toList parts

/-- Concrete records used to instantiate the theorems below. -/
def objA : Obj := ⟨1, [("title", "t".toList)]⟩

def objB : Obj := ⟨2, []⟩

/-- Claim C1: every hit produced by the packing function carries
    score = 1 / (1 + distance), the cosine-style normalization, whatever
    row list, topk and entity type tag the call site supplied. -/
theorem pack_score_cosine (t : String) (rows : List (Obj × ℚ)) (topk : Nat)
    (h : Hit) (hm : h ∈ pack t rows topk) : h.score = 1 / (1 + h.distance) := by
  obtain ⟨od, _, rfl⟩ := List.mem_map.mp hm
  simp [packOne, toScore]

theorem pack_score_cosine_witness :
    packOne "Idea" objA 3 ∈ pack "Idea" [(objA, 3)] 5 ∧
      (packOne "Idea" objA 3).score = 1 / (1 + (packOne "Idea" objA 3).distance) :=
  ⟨List.mem_cons_self _ _,
   pack_score_cosine "Idea" [(objA, 3)] 5 _ (List.mem_cons_self _ _)⟩

/-- Claim C5: for the cosine and l2 metrics the normalizer computes
    1 / (1 + distance); for every distance at least 0 the score lies in
    the half-open interval from 0 exclusive to 1 inclusive, distance 0
    gives score 1, and the score strictly decreases as the distance
    grows. -/
theorem toScore_bounds (metric : String) (d : ℚ)
    (hm : metric = "cosine" ∨ metric = "l2") (hd : 0 ≤ d) :
    toScore d metric = 1 / (1 + d) ∧ 0 < toScore d metric ∧ toScore d metric ≤ 1 ∧
      (d = 0 → toScore d metric = 1) ∧
      ∀ e : ℚ, d < e → toScore e metric < toScore d metric := by
  have ht : ∀ x : ℚ, toScore x metric = 1 / (1 + x) := by
    intro x
    rcases hm with rfl | rfl <;> simp [toScore]
  have h1 : (0 : ℚ) < 1 + d := by linarith
  refine ⟨ht d, ?_, ?_, ?_, ?_⟩
  · rw [ht]
    positivity
  · rw [ht, div_le_one h1]
    linarith
  · intro h0
    rw [ht, h0]
    norm_num
  · intro e he
    rw [ht, ht]
    exact one_div_lt_one_div_of_lt h1 (by linarith)

theorem toScore_bounds_witness :
    ("cosine" = "cosine" ∨ "cosine" = "l2") ∧ (0 : ℚ) ≤ 1 ∧ (1 : ℚ) < 2 ∧
      toScore 2 "cosine" < toScore 1 "cosine" ∧ 0 < toScore 1 "cosine" :=
  ⟨Or.inl rfl, by norm_num, by norm_num,
   (toScore_bounds "cosine" 1 (Or.inl rfl) (by norm_num)).2.2.2.2 2 (by norm_num),
   (toScore_bounds "cosine" 1 (Or.inl rfl) (by norm_num)).2.1⟩

/-- Claim C3: a retrieve output is sorted by score descending: every hit
    scores at least as high as its immediate successor. -/
theorem retrieve_sorted (proj doc idea cr stk : List (Obj × ℚ))
    (reqRows : List (ReqVer × ℚ)) (topk i : Nat)
    (hi : i + 1 < (retrieve proj doc idea cr stk reqRows topk).length) :
    ((retrieve proj doc idea cr stk reqRows topk).get ⟨i + 1, hi⟩).score ≤
      ((retrieve proj doc idea cr stk reqRows topk).get
        ⟨i, Nat.lt_of_succ_lt hi⟩).score := by
  have hs : (retrieve proj doc idea cr stk reqRows topk).Sorted scoreGe :=
    List.sorted_insertionSort scoreGe _
  exact hs.rel_get_of_lt (Nat.lt_succ_self i)

lemma retrieveExLen : (retrieve [(objA, 3), (objB, 1)] [] [] [] [] [] 5).length = 2 := by
  simp only [retrieve, sortHits]
  rw [List.length_insertionSort]
  simp [pack]

theorem retrieve_sorted_witness :
    0 + 1 < (retrieve [(objA, 3), (objB, 1)] [] [] [] [] [] 5).length ∧
      ((retrieve [(objA, 3), (objB, 1)] [] [] [] [] [] 5).get
          ⟨0 + 1, by rw [retrieveExLen]; norm_num⟩).score ≤
        ((retrieve [(objA, 3), (objB, 1)] [] [] [] [] [] 5).get
          ⟨0, by rw [retrieveExLen]; norm_num⟩).score :=
  ⟨by rw [retrieveExLen]; norm_num,
   retrieve_sorted [(objA, 3), (objB, 1)] [] [] [] [] [] 5 0
     (by rw [retrieveExLen]; norm_num)⟩

lemma dedup_first (l : List Hit) :
    ∀ (seen : List (String × Nat)) (h : Hit), h ∈ dedupHits l seen →
      hitKey h ∉ seen ∧ l.find? (fun x => decide (hitKey x = hitKey h)) = some h := by
  induction l with
  | nil =>
    intro seen h hm
    simp [dedupHits] at hm
  | cons a rest ih =>
    intro seen h hm
    by_cases ha : hitKey a ∈ seen
    · have hrec := ih seen h (by simpa [dedupHits, ha] using hm)
      have hne : hitKey a ≠ hitKey h := fun he => hrec.1 (he ▸ ha)
      refine ⟨hrec.1, ?_⟩
      rw [List.find?_cons_of_neg _ (by simpa using hne), hrec.2]
    · rw [dedupHits, if_neg ha] at hm
      rcases List.mem_cons.mp hm with rfl | hm'
      · exact ⟨ha, by rw [List.find?_cons_of_pos _ (by simp)]⟩
      · have hrec := ih (hitKey a :: seen) h hm'
        have hna : hitKey h ≠ hitKey a :=
          fun he => hrec.1 (by rw [he]; exact List.mem_cons_self _ _)
        refine ⟨fun hs => hrec.1 (List.mem_cons_of_mem _ hs), ?_⟩
        rw [List.find?_cons_of_neg _ (by simpa using hna.symm), hrec.2]

lemma dedup_nodup (l : List Hit) :
    ∀ seen : List (String × Nat), ((dedupHits l seen).map hitKey).Nodup := by
  induction l with
  | nil => simp [dedupHits]
  | cons a rest ih =>
    intro seen
    by_cases ha : hitKey a ∈ seen
    · simpa [dedupHits, ha] using ih seen
    · rw [dedupHits, if_neg ha]
      simp only [List.map_cons, List.nodup_cons]
      refine ⟨?_, ih _⟩
      intro hmem
      obtain ⟨x, hx, he⟩ := List.mem_map.mp hmem
      exact (dedup_first rest _ x hx).1 (he ▸ List.mem_cons_self _ _)

lemma dedup_covers (l : List Hit) :
    ∀ (seen : List (String × Nat)) (h : Hit), h ∈ l →
      hitKey h ∈ seen ∨ ∃ h', h' ∈ dedupHits l seen ∧ hitKey h' = hitKey h := by
  induction l with
  | nil => simp
  | cons a rest ih =>
    intro seen h hm
    by_cases ha : hitKey a ∈ seen
    · rcases List.mem_cons.mp hm with rfl | hm'
      · exact Or.inl ha
      · rcases ih seen h hm' with hs | ⟨h', hh', he⟩
        · exact Or.inl hs
        · exact Or.inr ⟨h', by simpa [dedupHits, ha] using hh', he⟩
    · rcases List.mem_cons.mp hm with rfl | hm'
      · exact Or.inr ⟨h, by simp [dedupHits, ha], rfl⟩
      · rcases ih (hitKey a :: seen) h hm' with hs | ⟨h', hh', he⟩
        · rcases List.mem_cons.mp hs with he' | hs'
          · exact Or.inr ⟨a, by simp [dedupHits, ha], he'.symm⟩
          · exact Or.inl hs'
        · refine Or.inr ⟨h', ?_, he⟩
          rw [dedupHits, if_neg ha]
          exact List.mem_cons_of_mem _ hh'

/-- Claim C2: an aggregation output never repeats a (type, id) key; every
    retained hit is the first occurrence of its key in the concatenation
    of the per-query retrievals (so an earlier query wins over any later
    one, whatever the scores); every key retrieved by some query is
    retained; and the retained list is sorted by score descending. -/
theorem aggregate_dedup_first_wins (retrievals : List (List Hit)) :
    ((aggregateFromQueries retrievals).map hitKey).Nodup ∧
      (∀ h ∈ aggregateFromQueries retrievals,
        retrievals.flatten.find? (fun x => decide (hitKey x = hitKey h)) = some h) ∧
      (∀ h ∈ retrievals.flatten,
        ∃ h' ∈ aggregateFromQueries retrievals, hitKey h' = hitKey h) ∧
      (aggregateFromQueries retrievals).Sorted scoreGe := by
  have hperm :
      List.Perm (aggregateFromQueries retrievals) (dedupHits retrievals.flatten []) :=
    List.perm_insertionSort scoreGe _
  refine ⟨?_, ?_, ?_, List.sorted_insertionSort scoreGe _⟩
  · exact ((hperm.map hitKey).nodup_iff).mpr (dedup_nodup retrievals.flatten [])
  · intro h hm
    exact (dedup_first retrievals.flatten [] h (hperm.mem_iff.mp hm)).2
  · intro h hm
    rcases dedup_covers retrievals.flatten [] h hm with hs | ⟨h', hh', he⟩
    · simp at hs
    · exact ⟨h', hperm.mem_iff.mpr hh', he⟩

/-- Hits used to instantiate the aggregation theorem: hitA2 shares the
    key of hitA but arrives from a later query with a higher score. -/
def hitA : Hit := ⟨"Idea", 1, 1, 2, []⟩

def hitA2 : Hit := ⟨"Idea", 1, 1, 3, []⟩

def hitB : Hit := ⟨"Document", 2, 1, 1, []⟩

theorem aggregate_dedup_first_wins_witness :
    hitA ∈ aggregateFromQueries [[hitA], [hitA2, hitB]] ∧
      [[hitA], [hitA2, hitB]].flatten.find?
        (fun x => decide (hitKey x = hitKey hitA)) = some hitA ∧
      hitA2 ∈ [[hitA], [hitA2, hitB]].flatten ∧
      ∃ h' ∈ aggregateFromQueries [[hitA], [hitA2, hitB]], hitKey h' = hitKey hitA2 :=
  ⟨by decide,
   (aggregate_dedup_first_wins [[hitA], [hitA2, hitB]]).2.1 hitA (by decide),
   by decide,
   (aggregate_dedup_first_wins [[hitA], [hitA2, hitB]]).2.2.1 hitA2 (by decide)⟩

/-- A record carrying an embedding attribute, an underscore-internal
    attribute and a title, as an ORM instance dictionary does. -/
def objEmb : Obj :=
  ⟨3, [("embedding", "v".toList), ("_sa_instance_state", "s".toList),
       ("title", "t".toList)]⟩

/-- Claim C4 counterexample: the snapshot packed for objEmb keeps the key
    named embedding, because the packer drops only underscore-prefixed
    attribute names; the embedding vector field is not excluded. -/
theorem pack_keeps_embedding :
    (pack "Idea" [(objEmb, 1)] 5).map (fun h => h.data.map Prod.fst) =
      [["embedding", "title"]] := by decide

/-- Claim C4 amended: the snapshot of every packed hit keeps exactly the
    record attributes whose name does not start with an underscore: the
    underscore-prefixed names are dropped, and every other attribute,
    the embedding vector field included, is retained. -/
theorem pack_data_visibility (t : String) (rows : List (Obj × ℚ)) (topk : Nat) :
    ∀ h ∈ pack t rows topk,
      (∀ kv ∈ h.data, underscoreKey kv.1 = false) ∧
      ∃ od ∈ rows.take topk,
        h.data = od.1.fields.filter (fun kv => !(underscoreKey kv.1)) ∧
        ∀ kv ∈ od.1.fields, underscoreKey kv.1 = false → kv ∈ h.data := by
  intro h hm
  obtain ⟨od, hod, rfl⟩ := List.mem_map.mp hm
  constructor
  · intro kv hkv
    simp only [packOne] at hkv
    have h2 := List.of_mem_filter hkv
    simpa using h2
  · refine ⟨od, hod, rfl, ?_⟩
    intro kv hkv hs
    simp only [packOne]
    exact List.mem_filter.mpr ⟨hkv, by simp [hs]⟩

theorem pack_data_visibility_witness :
    packOne "Idea" objEmb 1 ∈ pack "Idea" [(objEmb, 1)] 5 ∧
      ∀ kv ∈ (packOne "Idea" objEmb 1).data, underscoreKey kv.1 = false :=
  ⟨List.mem_cons_self _ _,
   (pack_data_visibility "Idea" [(objEmb, 1)] 5 _ (List.mem_cons_self _ _)).1⟩

/-- Claim C8: with only the requirement source returning a row, retrieve
    packs exactly one hit under the Requirement type tag; the id of the
    hit is the owning requirement when the back-reference resolves and
    the version record itself otherwise, and no failure occurs. -/
theorem retrieve_req_resolution (v : ReqVer) (d : ℚ) (topk : Nat) (ht : 0 < topk) :
    retrieve [] [] [] [] [] [(v, d)] topk = [packOne "Requirement" (resolveVer v) d] ∧
      (packOne "Requirement" (resolveVer v) d).type = "Requirement" ∧
      (∀ r, v.requirement = some r →
        (packOne "Requirement" (resolveVer v) d).id = r.id) ∧
      (v.requirement = none → (packOne "Requirement" (resolveVer v) d).id = v.obj.id) := by
  refine ⟨?_, rfl, ?_, ?_⟩
  · have htake : ([(resolveVer v, d)] : List (Obj × ℚ)).take topk = [(resolveVer v, d)] :=
      List.take_of_length_le (by simpa using ht)
    simp [retrieve, pack, htake, sortHits, List.insertionSort, List.orderedInsert]
  · intro r hr
    simp [packOne, resolveVer, hr]
  · intro hr
    simp [packOne, resolveVer, hr]

def verA : ReqVer := ⟨⟨5, []⟩, some ⟨7, []⟩⟩

theorem retrieve_req_resolution_witness :
    0 < 5 ∧
      retrieve [] [] [] [] [] [(verA, 1)] 5 =
        [packOne "Requirement" (resolveVer verA) 1] ∧
      (packOne "Requirement" (resolveVer verA) 1).id = 7 :=
  ⟨by norm_num, (retrieve_req_resolution verA 1 5 (by norm_num)).1,
   (retrieve_req_resolution verA 1 5 (by norm_num)).2.2.1 ⟨7, []⟩ rfl⟩

/-- Claim C9: the query post-processing maps the given raw expansion
    response to exactly the single surviving query about the rollout
    constraint: the short lines are dropped and the wrapping dash,
    whitespace and quote characters are removed. -/
theorem augment_short_filter :
    augmentFilter "- ok\n- \"What is the main constraint of the rollout?\"\n-  Hi".toList =
      ["What is the main constraint of the rollout?".toList] := by decide

/-- A change request hit whose summary holds 101 letters, one more than
    the rendering width. -/
def crEx : Hit :=
  { type := "Change Request", id := 1, distance := 1, score := 1,
    data := [("summary", List.replicate 101 'a'), ("status", "x".toList)] }

/-- Claim C6 counterexample: the 101-letter summary of crEx is rendered
    truncated to its first 100 letters, and the whole formatted context
    holds no dot at all, so no ellipsis marks this truncation. -/
theorem cr_truncated_without_ellipsis :
    formatContext [crEx] =
      "\n\n## Recent Change Requests:\n\n- ".toList ++ List.replicate 100 'a' ++
        "\n  Status: x".toList ∧
      '.' ∉ formatContext [crEx] := by decide

/-- Claim C6 amended: document bodies are truncated to 500 characters and
    idea and requirement descriptions to 200, a trailing ellipsis marking
    the truncation in those cases; change request summaries are truncated
    to their first 100 characters with no ellipsis appended. -/
theorem format_truncation :
    (∀ text : Str,
      (500 < text.length →
        docBody text = text.take 500 ++ "...".toList ∧
          (docBody text).drop 500 = "...".toList) ∧
      (text.length ≤ 500 → docBody text = text)) ∧
    (∀ desc : Str,
      (200 < desc.length →
        descLine desc = "  ".toList ++ desc.take 200 ++ "...".toList ∧
          (descLine desc).drop 202 = "...".toList) ∧
      (desc.length ≤ 200 → descLine desc = "  ".toList ++ desc)) ∧
    (∀ s : Str,
      crSummaryLine s = "\n- ".toList ++ s.take 100 ∧
        (crSummaryLine s).length = 3 + min 100 s.length) := by
  refine ⟨fun text => ⟨fun hlong => ⟨?_, ?_⟩, fun hshort => ?_⟩,
    fun desc => ⟨fun hlong => ⟨?_, ?_⟩, fun hshort => ?_⟩,
    fun s => ⟨rfl, ?_⟩⟩
  · simp [docBody, hlong]
  · rw [docBody, if_pos hlong]
    exact List.drop_left' (by rw [List.length_take]; omega)
  · simp [docBody]
    omega
  · simp [descLine, hlong]
  · rw [descLine, if_pos hlong]
    show List.drop 200 (List.take 200 desc ++ "...".toList) = "...".toList
    exact List.drop_left' (by rw [List.length_take]; omega)
  · simp [descLine]
    omega
  · rw [crSummaryLine, List.length_append, List.length_take]
    rfl

theorem format_truncation_witness :
    500 < (List.replicate 501 'a').length ∧
      (docBody (List.replicate 501 'a')).drop 500 = "...".toList ∧
      200 < (List.replicate 201 'b').length ∧
      (descLine (List.replicate 201 'b')).drop 202 = "...".toList ∧
      (List.replicate 3 'c').length ≤ 500 ∧ docBody (List.replicate 3 'c') = List.replicate 3 'c' ∧
      crSummaryLine (List.replicate 101 'd') = "\n- ".toList ++ (List.replicate 101 'd').take 100 :=
  ⟨by rw [List.length_replicate]; norm_num,
   ((format_truncation.1 (List.replicate 501 'a')).1
     (by rw [List.length_replicate]; norm_num)).2,
   by rw [List.length_replicate]; norm_num,
   ((format_truncation.2.1 (List.replicate 201 'b')).1
     (by rw [List.length_replicate]; norm_num)).2,
   by rw [List.length_replicate]; norm_num,
   (format_truncation.1 (List.replicate 3 'c')).2
     (by rw [List.length_replicate]; norm_num),
   (format_truncation.2.2 (List.replicate 101 'd')).1⟩

/-- The six entity type tags rendered by the formatter. -/
def knownTypes : List String :=
  ["Document", "Idea", "Requirement", "Project", "Change Request", "Stakeholder"]

/-- Claim C7: when no hit carries one of the six rendered type tags, and
    in particular for the empty hit list, the formatter returns the
    sentinel text, which differs from the empty string, and no failure
    occurs. -/
theorem format_no_context (hits : List Hit) (h : ∀ x ∈ hits, x.type ∉ knownTypes) :
    formatContext hits = "No relevant context found.".toList ∧
      formatContext hits ≠ [] := by
  have hf : ∀ t : String, t ∈ knownTypes → hits.filter (fun x => x.type == t) = [] := by
    intro t ht
    apply List.filter_eq_nil_iff.mpr
    intro x hx
    simp only [beq_iff_eq]
    intro he
    exact h x hx (he ▸ ht)
  have hmain : formatContext hits = "No relevant context found.".toList := by
    simp [formatContext, sectionFor, hf "Document" (by decide), hf "Idea" (by decide),
      hf "Requirement" (by decide), hf "Project" (by decide),
      hf "Change Request" (by decide), hf "Stakeholder" (by decide)]
  exact ⟨hmain, by rw [hmain]; decide⟩

def fooHit : Hit := ⟨"Foo", 1, 1, 1, []⟩

theorem format_no_context_witness :
    (∀ x ∈ [fooHit], x.type ∉ knownTypes) ∧
      formatContext [fooHit] = "No relevant context found.".toList ∧
      formatContext [fooHit] ≠ [] :=
  ⟨by decide, (format_no_context [fooHit] (by decide)).1,
   (format_no_context [fooHit] (by decide)).2⟩

/-- An idea hit with an empty field snapshot. -/
def ideaEx : Hit := ⟨"Idea", 4, 1, 1, []⟩

/-- Claim C10 counterexample: the idea category absent from the snapshot
    is rendered with the fixed default text uncategorized, which is none
    of the five defaults the claim enumerates. -/
theorem idea_category_default :
    (ideaParts ideaEx).head? = some "\n- **Untitled** (uncategorized)".toList ∧
      "uncategorized".toList ∉
        ["Untitled".toList, "unknown".toList, "N/A".toList, "No summary".toList,
         ([] : Str)] := by decide

/-- The field names read by the six per-type renderers. -/
def renderedFields : List String :=
  ["title", "type", "text", "category", "status", "priority", "ice_score",
   "description", "key", "project_status", "summary", "name", "surname", "role"]

lemma dget_default (d : List (String × Str)) (k : String) (dflt : Str)
    (hk : ∀ kv ∈ d, kv.1 ≠ k) : dget d k dflt = dflt := by
  unfold dget
  rw [List.find?_eq_none.mpr]
  · rfl
  · intro kv hkv
    simpa using hk kv hkv

/-- Claim C10 amended: rendering is total over snapshots missing any of
    the rendered fields; for every hit whose snapshot holds none of the
    rendered field names, every rendered field falls back to its fixed
    default (Untitled, uncategorized, unknown, N/A, No summary, or the
    empty text), whatever other fields the snapshot carries. -/
theorem format_defaults (h : Hit) (hd : ∀ kv ∈ h.data, kv.1 ∉ renderedFields) :
    docParts h =
      ["\n### Untitled (unknown)".toList, "Relevance: ".toList ++ fmt2 h.score,
       ([] : Str)] ∧
    ideaParts h =
      ["\n- **Untitled** (uncategorized)".toList,
       "  Relevance: ".toList ++ fmt2 h.score,
       "  Status: unknown, Priority: unknown".toList, "  ICE Score: N/A".toList,
       "  ".toList] ∧
    reqParts h =
      ["\n- **Untitled** (unknown)".toList, "  Relevance: ".toList ++ fmt2 h.score,
       "  ".toList] ∧
    projParts h = ["\n- **Untitled** (Key: N/A)".toList, "  Status: unknown".toList] ∧
    crParts h = ["\n- No summary".toList, "  Status: unknown".toList] ∧
    stkParts h = ["\n- **Name: Untitled Untitled)**".toList, "  Role: unknown".toList] := by
  have hget : ∀ k : String, k ∈ renderedFields → ∀ dflt, dget h.data k dflt = dflt := by
    intro k hk dflt
    refine dget_default h.data k dflt ?_
    intro kv hkv he
    exact hd kv hkv (he ▸ hk)
  refine ⟨?_, ?_, ?_, ?_, ?_, ?_⟩ <;>
    simp only [docParts, ideaParts, reqParts, projParts, crParts, stkParts,
      hget "title" (by decide), hget "type" (by decide), hget "text" (by decide),
      hget "category" (by decide), hget "status" (by decide),
      hget "priority" (by decide), hget "ice_score" (by decide),
      hget "description" (by decide), hget "key" (by decide),
      hget "project_status" (by decide), hget "summary" (by decide),
      hget "name" (by decide), hget "surname" (by decide), hget "role" (by decide),
      List.cons.injEq]
  · exact ⟨by decide, trivial, by decide, trivial⟩
  · exact ⟨by decide, trivial, by decide, by decide, by decide, trivial⟩
  · exact ⟨by decide, trivial, by decide, trivial⟩
  · exact ⟨by decide, by decide, trivial⟩
  · exact ⟨by decide, by decide, trivial⟩
  · exact ⟨by decide, by decide, trivial⟩

def oddHit : Hit := ⟨"Idea", 9, 1, 1, [("foo", "bar".toList)]⟩

theorem format_defaults_witness :
    (∀ kv ∈ oddHit.data, kv.1 ∉ renderedFields) ∧
      ideaParts oddHit =
        ["\n- **Untitled** (uncategorized)".toList,
         "  Relevance: ".toList ++ fmt2 oddHit.score,
         "  Status: unknown, Priority: unknown".toList, "  ICE Score: N/A".toList,
         "  ".toList] :=
  ⟨by decide, (format_defaults oddHit (by decide)).2.1⟩

end Rag
